import Mathlib

set_option maxRecDepth 8192

/-!
Shallow embedding of the `traceparent` Go package (`traceparent.go`):
a middleware that parses the W3C `traceparent` HTTP header into a `Trace`
value stored in the request context, and a `slog` attribute extractor that
renders the stored trace as log fields.
-/

/-- The `Trace` struct of `traceparent.go`: tracing information used in logging. -/
structure Trace where
  ID : String
  SpanID : String
  Sampled : Bool
deriving DecidableEq

/-- Context keys: the package-private `traceContextKeyT{}` key, or any
unrelated key owned by other code. -/
inductive CtxKey where
  | traceKey
  | other (n : Nat)
deriving DecidableEq

/-- Context values: a `Trace` value, or any unrelated value. -/
inductive CtxVal where
  | traceVal (t : Trace)
  | otherVal (n : Nat)
deriving DecidableEq

/-- A Go `context.Context` as a chain of `WithValue` derivations over a root. -/
inductive Ctx where
  | background
  | withValue (parent : Ctx) (key : CtxKey) (val : CtxVal)
deriving DecidableEq

/-- `ctx.Value(key)`: the value of the nearest `WithValue` ancestor bearing `key`. -/
def Ctx.value : Ctx → CtxKey → Option CtxVal
  | .background, _ => none
  | .withValue p k v, k' => if k' = k then some v else p.value k'

/-- `func (trace Trace) Context(ctx context.Context) context.Context`:
`context.WithValue(ctx, traceContextKeyT{}, trace)`. -/
def Trace.Context (trace : Trace) (ctx : Ctx) : Ctx :=
  ctx.withValue .traceKey (.traceVal trace)

/-- `ctx.Value(traceContextKeyT{}).(Trace)`: the context lookup together with
the type assertion to `Trace`, as performed by `TraceParentExtractor`. -/
def lookupTrace (ctx : Ctx) : Option Trace :=
  match ctx.value .traceKey with
  | some (.traceVal t) => some t
  | _ => none

/-- Value of a hexadecimal digit character, as accepted by Go's
`strconv.ParseUint` with base 16 (letters with digit value ≥ 16 are rejected). -/
def hexDigitVal? (c : Char) : Option Nat :=
  if '0' ≤ c ∧ c ≤ '9' then some (c.toNat - '0'.toNat)
  else if 'a' ≤ c ∧ c ≤ 'f' then some (c.toNat - 'a'.toNat + 10)
  else if 'A' ≤ c ∧ c ≤ 'F' then some (c.toNat - 'A'.toNat + 10)
  else none

/-- Accumulating base-16 digit loop of `strconv.ParseUint`. -/
def parseHexDigits : List Char → Nat → Option Nat
  | [], acc => some acc
  | c :: rest, acc =>
    match hexDigitVal? c with
    | some d => parseHexDigits rest (16 * acc + d)
    | none => none

/-- `strconv.ParseUint(s, 16, _)` digit phase: empty input or any non-hex
character is a syntax error (`none`); the numeric value is unbounded here,
range checking happens in the caller. -/
def parseHexNat? (l : List Char) : Option Nat :=
  match l with
  | [] => none
  | _ :: _ => parseHexDigits l 0

/-- `strconv.ParseInt(s, 16, 8)`: optional sign, base-16 digits, and the
signed 8-bit range check (−128 ≤ n ≤ 127); `none` models a non-nil error. -/
def goParseInt16_8 (s : String) : Option Int :=
  match s.data with
  | [] => none
  | c :: rest =>
    if c = '-' then
      match parseHexNat? rest with
      | some n => if n ≤ 128 then some (-(n : Int)) else none
      | none => none
    else if c = '+' then
      match parseHexNat? rest with
      | some n => if n < 128 then some (n : Int) else none
      | none => none
    else
      match parseHexNat? (c :: rest) with
      | some n => if n < 128 then some (n : Int) else none
      | none => none

/-- `strings.Split(s, "-")` on the character list: split at every `'-'`,
keeping empty segments; the empty input yields one empty segment. -/
def splitDashChars : List Char → List (List Char)
  | [] => [[]]
  | c :: rest =>
    if c = '-' then [] :: splitDashChars rest
    else
      match splitDashChars rest with
      | [] => [[c]]
      | p :: ps => (c :: p) :: ps

/-- `strings.Split(s, "-")`. -/
def goSplitDash (s : String) : List String :=
  (splitDashChars s.data).map (fun l => String.mk l)

/-- The part of an `http.Request` the middleware touches: the value of
`r.Header.Get("traceparent")` (empty when the header is absent) and the
request context. -/
structure Request where
  traceparentHeader : String
  ctx : Ctx
deriving DecidableEq

/-- A `slog.Attr` value (only the two kinds this package produces). -/
inductive AttrValue where
  | str (s : String)
  | bool (b : Bool)
deriving DecidableEq

/-- A `slog.Attr`: a key paired with a value. -/
structure Attr where
  key : String
  value : AttrValue
deriving DecidableEq

/-- `slog.String(key, value)`. -/
def slogString (key value : String) : Attr := ⟨key, .str value⟩

/-- `slog.Bool(key, value)`. -/
def slogBool (key : String) (value : Bool) : Attr := ⟨key, .bool value⟩

/-- `func New(next http.Handler) http.Handler`: the middleware body. `next`
is the inner handler; the result is whatever `next.ServeHTTP` produces on the
request the middleware passes to it (the original request, or the request
with the enriched context). -/
def New {α : Type} (next : Request → α) (r : Request) : α :=
  let traceparent := goSplitDash r.traceparentHeader
  if traceparent.length = 4 ∧ traceparent.getD 0 "" = "00" then
    match goParseInt16_8 (traceparent.getD 3 "") with
    | some flags =>
      let trace : Trace :=
        { ID := traceparent.getD 1 ""
          SpanID := traceparent.getD 2 ""
          Sampled := Int.land flags 1 != 0 }
      next { r with ctx := trace.Context r.ctx }
    | none => next r
  else next r

/-- `func TraceParentExtractor(ctx, recordT, recordLvl, recordMsg) []slog.Attr`.
The record metadata (`time.Time`, `slog.Level`, message) is modelled as
`Nat`, `Int`, `String`; the function never inspects it. -/
def TraceParentExtractor (ctx : Ctx) (recordT : Nat) (recordLvl : Int)
    (recordMsg : String) : List Attr :=
  match lookupTrace ctx with
  | none => []
  | some trace =>
    if trace.ID = "" then []
    else
      let attrs := [slogString "traceID" trace.ID, slogBool "traceSampled" trace.Sampled]
      if trace.SpanID != "" then attrs ++ [slogString "spanID" trace.ID]
      else attrs

/-- Lowercase hexadecimal digit, the character class the spec's header form
`00-<32 lowercase hex>-<16 hex>-<2 hex flags>` uses for the trace id. -/
def isLowerHexDigit (c : Char) : Bool :=
  ('0' ≤ c && c ≤ '9') || ('a' ≤ c && c ≤ 'f')

/-- Hexadecimal digit of either case. -/
def isHexDigit (c : Char) : Bool :=
  isLowerHexDigit c || ('A' ≤ c && c ≤ 'F')

/-- Stated from the spec's words, for refutation purposes only: the header
shape claimed to be always accepted — version `"00"`, a 32-character
lowercase-hex trace id, a 16-character hex span id, and a 2-character hex
flags segment. -/
def claimedHeaderShape (s : String) : Bool :=
  match goSplitDash s with
  | [v, i, sp, f] =>
    v == "00" && (i.data.length == 32) && i.data.all (fun c => isLowerHexDigit c)
      && (sp.data.length == 16) && sp.data.all (fun c => isHexDigit c)
      && (f.data.length == 2) && f.data.all (fun c => isHexDigit c)
  | _ => false

/-- A chain of further `context.WithValue` derivations applied left to right. -/
def extendCtx (c : Ctx) : List (CtxKey × CtxVal) → Ctx
  | [] => c
  | kv :: rest => extendCtx (c.withValue kv.1 kv.2) rest

/-- Whether any derivation in the context's ancestry was made by
`Trace.Context` (i.e. stores a `Trace` under the package-private key). -/
def Ctx.hasTraceAttachment : Ctx → Bool
  | .background => false
  | .withValue p k v =>
    (k == CtxKey.traceKey
      && (match v with | .traceVal _ => true | .otherVal _ => false))
    || p.hasTraceAttachment

example : goSplitDash "" = [""] := by decide
example : goSplitDash "00-abc-def-01" = ["00", "abc", "def", "01"] := by decide
example : goParseInt16_8 "01" = some 1 := by decide
example : goParseInt16_8 "80" = none := by decide
example : goParseInt16_8 "7f" = some 127 := by decide
example : goParseInt16_8 "zz" = none := by decide
example : goParseInt16_8 "" = none := by decide
example : New (fun r => lookupTrace r.ctx) ⟨"00-abc-def-01", Ctx.background⟩
    = some ⟨"abc", "def", true⟩ := by decide
example : New (fun r => r) ⟨"00-abc-def-80", Ctx.background⟩
    = ⟨"00-abc-def-80", Ctx.background⟩ := by decide
example : TraceParentExtractor ((Trace.mk "a" "b" true).Context .background) 0 0 ""
    = [⟨"traceID", .str "a"⟩, ⟨"traceSampled", .bool true⟩, ⟨"spanID", .str "a"⟩] := by decide

/-! ### Helper lemmas -/

theorem splitDashChars_no_dash (l : List Char) (h : ∀ c ∈ l, c ≠ '-') :
    splitDashChars l = [l] := by
  induction l with
  | nil => rfl
  | cons c rest ih =>
    have hc : c ≠ '-' := h c (List.mem_cons_self ..)
    have hrest : ∀ x ∈ rest, x ≠ '-' := fun x hx => h x (List.mem_cons_of_mem _ hx)
    simp only [splitDashChars, if_neg hc, ih hrest]

theorem splitDashChars_append (l rest : List Char) (h : ∀ c ∈ l, c ≠ '-') :
    splitDashChars (l ++ '-' :: rest) = l :: splitDashChars rest := by
  induction l with
  | nil => simp [splitDashChars]
  | cons c t ih =>
    have hc : c ≠ '-' := h c (List.mem_cons_self ..)
    have ht : ∀ x ∈ t, x ≠ '-' := fun x hx => h x (List.mem_cons_of_mem _ hx)
    simp only [List.cons_append, splitDashChars, if_neg hc, List.append_eq, ih ht]

theorem isHexDigit_of_lower (c : Char) (h : isLowerHexDigit c = true) :
    isHexDigit c = true := by
  simp [isHexDigit, h]

theorem ne_dash_of_isHexDigit (c : Char) (h : isHexDigit c = true) : c ≠ '-' := by
  rintro rfl
  exact absurd h (by decide)

theorem hexDigitVal_ne_signs (c : Char) (d : Nat) (h : hexDigitVal? c = some d) :
    c ≠ '-' ∧ c ≠ '+' := by
  constructor
  · rintro rfl
    rw [(by decide : hexDigitVal? '-' = none)] at h
    cases h
  · rintro rfl
    rw [(by decide : hexDigitVal? '+' = none)] at h
    cases h

theorem goParseInt16_8_two_hex (c1 c2 : Char) (d1 d2 : Nat)
    (h1 : hexDigitVal? c1 = some d1) (h2 : hexDigitVal? c2 = some d2)
    (hr : 16 * d1 + d2 < 128) :
    goParseInt16_8 (String.mk [c1, c2]) = some ((16 * d1 + d2 : Nat) : Int) := by
  obtain ⟨hd1, hp1⟩ := hexDigitVal_ne_signs c1 d1 h1
  have hparse : parseHexNat? [c1, c2] = some (16 * d1 + d2) := by
    simp only [parseHexNat?, parseHexDigits, h1, h2]
    norm_num
  simp only [goParseInt16_8, String.mk, if_neg hd1, if_neg hp1, hparse, if_pos hr]

theorem int_land_one (n : Nat) :
    ((Int.land (n : Int) 1) != 0) = decide (n % 2 = 1) := by
  have h1 : Int.land (n : Int) 1 = Int.ofNat (n &&& 1) := rfl
  rw [h1, Nat.and_one_is_mod]
  rcases Nat.mod_two_eq_zero_or_one n with h | h <;> rw [h] <;> rfl

theorem lookupTrace_context (T : Trace) (c : Ctx) :
    lookupTrace (T.Context c) = some T := rfl

theorem lookupTrace_extend (c : Ctx) (T : Trace) (l : List (CtxKey × CtxVal))
    (hl : ∀ kv ∈ l, kv.1 ≠ CtxKey.traceKey) (hc : lookupTrace c = some T) :
    lookupTrace (extendCtx c l) = some T := by
  induction l generalizing c with
  | nil => exact hc
  | cons kv rest ih =>
    apply ih _ (fun x hx => hl x (List.mem_cons_of_mem _ hx))
    have hk : kv.1 ≠ CtxKey.traceKey := hl kv (List.mem_cons_self ..)
    have hv : Ctx.value (c.withValue kv.1 kv.2) CtxKey.traceKey
        = Ctx.value c CtxKey.traceKey := by
      simp only [Ctx.value]
      rw [if_neg (fun he => hk he.symm)]
    simp only [lookupTrace, hv]
    exact hc

theorem lookupTrace_no_attach (c : Ctx) (h : c.hasTraceAttachment = false) :
    lookupTrace c = none := by
  induction c with
  | background => rfl
  | withValue p k v ih =>
    simp only [Ctx.hasTraceAttachment, Bool.or_eq_false_iff] at h
    obtain ⟨h1, h2⟩ := h
    simp only [lookupTrace, Ctx.value]
    by_cases hk : CtxKey.traceKey = k
    · rw [if_pos hk]
      subst hk
      cases v with
      | traceVal t => simp at h1
      | otherVal n => rfl
    · rw [if_neg hk]
      exact ih h2

/-! ### Claim theorems -/

/-- C1 (amended): for every header of the form
`00-<32 lowercase hex>-<16 hex>-<2 hex flags>` whose flags value is below
0x80 (so that Go's `ParseInt(_, 16, 8)` accepts it), the middleware attaches
a Trace whose id and spanID are the corresponding segments and whose sampled
flag is bit 0 of the flags byte, and invokes the inner handler with the
enriched context. -/
theorem traceparent_C1 {α : Type} (next : Request → α) (c : Ctx) (id span : String)
    (c1 c2 : Char) (d1 d2 : Nat)
    (hidhex : ∀ ch ∈ id.data, isLowerHexDigit ch = true)
    (hsphex : ∀ ch ∈ span.data, isHexDigit ch = true)
    (h1 : hexDigitVal? c1 = some d1) (h2 : hexDigitVal? c2 = some d2)
    (hr : 16 * d1 + d2 < 128)
    (hidlen : id.data.length = 32) (hsplen : span.data.length = 16) :
    New next ⟨"00-" ++ id ++ "-" ++ span ++ "-" ++ String.mk [c1, c2], c⟩
      = next ⟨"00-" ++ id ++ "-" ++ span ++ "-" ++ String.mk [c1, c2],
          (Trace.mk id span (decide ((16 * d1 + d2) % 2 = 1))).Context c⟩ := by
  have hid' : ∀ ch ∈ id.data, ch ≠ '-' := fun ch hm =>
    ne_dash_of_isHexDigit ch (isHexDigit_of_lower ch (hidhex ch hm))
  have hsp' : ∀ ch ∈ span.data, ch ≠ '-' := fun ch hm =>
    ne_dash_of_isHexDigit ch (hsphex ch hm)
  have hf' : ∀ ch ∈ [c1, c2], ch ≠ '-' := by
    intro ch hm
    rcases List.mem_cons.mp hm with rfl | hm2
    · exact (hexDigitVal_ne_signs ch d1 h1).1
    · rcases List.mem_cons.mp hm2 with rfl | hm3
      · exact (hexDigitVal_ne_signs ch d2 h2).1
      · cases hm3
  have hdata : ("00-" ++ id ++ "-" ++ span ++ "-" ++ String.mk [c1, c2]).data
      = ['0', '0'] ++ '-' :: (id.data ++ '-' :: (span.data ++ '-' :: [c1, c2])) := by
    simp [String.data_append]
  have hsplit : goSplitDash ("00-" ++ id ++ "-" ++ span ++ "-" ++ String.mk [c1, c2])
      = ["00", id, span, String.mk [c1, c2]] := by
    unfold goSplitDash
    rw [hdata, splitDashChars_append _ _ (by decide), splitDashChars_append _ _ hid',
      splitDashChars_append _ _ hsp', splitDashChars_no_dash _ hf']
    rfl
  have hg : goParseInt16_8 (List.getD ["00", id, span, String.mk [c1, c2]] 3 "")
      = some ((16 * d1 + d2 : Nat) : Int) :=
    goParseInt16_8_two_hex c1 c2 d1 d2 h1 h2 hr
  simp only [New, hsplit, hg]
  rw [if_pos ⟨rfl, rfl⟩]
  rw [int_land_one]
  rfl

/-- C1 counterexample: the header
`00-44444444444444444444444444444444-5555555555555555-80` has exactly the
form the claim quantifies over (version `00`, 32 lowercase hex, 16 hex,
2 hex flags), yet the middleware attaches no Trace Record: the inner handler
observes a context with no trace, because `ParseInt("80", 16, 8)` fails the
signed 8-bit range check. -/
theorem traceparent_C1_counterexample :
    claimedHeaderShape "00-44444444444444444444444444444444-5555555555555555-80" = true
    ∧ New (fun r => lookupTrace r.ctx)
        ⟨"00-44444444444444444444444444444444-5555555555555555-80", Ctx.background⟩
      = none :=
  ⟨by decide, by decide⟩

/-- C1 witness: the amended theorem applied to the standard W3C example
header with flags `01`. -/
theorem traceparent_C1_witness :
    (∀ ch ∈ ("4bf92f3577b34da6a3ce929d0e0e4736" : String).data, isLowerHexDigit ch = true)
    ∧ (∀ ch ∈ ("00f067aa0ba902b7" : String).data, isHexDigit ch = true)
    ∧ hexDigitVal? '0' = some 0
    ∧ hexDigitVal? '1' = some 1
    ∧ 16 * 0 + 1 < 128
    ∧ ("4bf92f3577b34da6a3ce929d0e0e4736" : String).data.length = 32
    ∧ ("00f067aa0ba902b7" : String).data.length = 16
    ∧ New (fun r => lookupTrace r.ctx)
        ⟨"00-" ++ "4bf92f3577b34da6a3ce929d0e0e4736" ++ "-" ++ "00f067aa0ba902b7"
            ++ "-" ++ String.mk ['0', '1'], Ctx.background⟩
      = some (Trace.mk "4bf92f3577b34da6a3ce929d0e0e4736" "00f067aa0ba902b7"
          (decide ((16 * 0 + 1) % 2 = 1))) :=
  ⟨by decide, by decide, by decide, by decide, by decide, by decide, by decide, by
    rw [traceparent_C1 (fun r => lookupTrace r.ctx) Ctx.background
      "4bf92f3577b34da6a3ce929d0e0e4736" "00f067aa0ba902b7" '0' '1' 0 1
      (by decide) (by decide) (by decide) (by decide) (by decide) (by decide) (by decide)]
    rfl⟩

/-- C2: whenever the header splits into exactly 4 parts with part 0 equal to
`"00"` but the flags segment fails `ParseInt(_, 16, 8)`, the middleware
invokes the inner handler with the original, untouched request. -/
theorem traceparent_C2 {α : Type} (next : Request → α) (r : Request)
    (h4 : (goSplitDash r.traceparentHeader).length = 4)
    (h0 : (goSplitDash r.traceparentHeader).getD 0 "" = "00")
    (hp : goParseInt16_8 ((goSplitDash r.traceparentHeader).getD 3 "") = none) :
    New next r = next r := by
  simp only [New, hp]
  rw [if_pos ⟨h4, h0⟩]

/-- C2 witness: header `00-a-b-zz` splits well but `zz` is not hex. -/
theorem traceparent_C2_witness :
    (goSplitDash "00-a-b-zz").length = 4
    ∧ (goSplitDash "00-a-b-zz").getD 0 "" = "00"
    ∧ goParseInt16_8 ((goSplitDash "00-a-b-zz").getD 3 "") = none
    ∧ New (fun q => q) ⟨"00-a-b-zz", Ctx.background⟩ = ⟨"00-a-b-zz", Ctx.background⟩ :=
  ⟨by decide, by decide, by decide,
    traceparent_C2 (fun q => q) ⟨"00-a-b-zz", Ctx.background⟩
      (by decide) (by decide) (by decide)⟩

/-- C3: whenever the header fails the 4-segment-and-version-`"00"` check, the
middleware invokes the inner handler with the original request: the context
is the original one, no derivation happens, and no other request field is
changed. -/
theorem traceparent_C3 {α : Type} (next : Request → α) (r : Request)
    (h : ¬((goSplitDash r.traceparentHeader).length = 4
        ∧ (goSplitDash r.traceparentHeader).getD 0 "" = "00")) :
    New next r = next r := by
  simp only [New]
  rw [if_neg h]

/-- C3 witness: the absent header (empty string) splits into one part. -/
theorem traceparent_C3_witness :
    ¬((goSplitDash "").length = 4 ∧ (goSplitDash "").getD 0 "" = "00")
    ∧ New (fun q => q) ⟨"", Ctx.background⟩ = ⟨"", Ctx.background⟩ :=
  ⟨by decide,
    traceparent_C3 (fun q => q) ⟨"", Ctx.background⟩ (by decide)⟩

/-- C4: round-trip of the context carrier. Looking up the trace in
`T.Context c` finds `T` (found = true); the same holds after any chain of
further derivations under keys other than the package-private trace key; and
lookup on a context whose ancestry contains no `Trace.Context` derivation
reports not-found. -/
theorem traceparent_C4 (c c0 : Ctx) (T : Trace) (l : List (CtxKey × CtxVal))
    (hl : ∀ kv ∈ l, kv.1 ≠ CtxKey.traceKey)
    (h0 : c0.hasTraceAttachment = false) :
    lookupTrace (T.Context c) = some T
    ∧ lookupTrace (extendCtx (T.Context c) l) = some T
    ∧ lookupTrace c0 = none :=
  ⟨lookupTrace_context T c,
    lookupTrace_extend (T.Context c) T l hl (lookupTrace_context T c),
    lookupTrace_no_attach c0 h0⟩

/-- C4 witness: a trace survives a derivation under an unrelated key, and a
context built only from unrelated keys yields not-found. -/
theorem traceparent_C4_witness :
    (∀ kv ∈ [(CtxKey.other 1, CtxVal.otherVal 5)], kv.1 ≠ CtxKey.traceKey)
    ∧ (Ctx.background.withValue (CtxKey.other 2) (CtxVal.otherVal 3)).hasTraceAttachment = false
    ∧ (lookupTrace ((Trace.mk "a" "b" true).Context Ctx.background) = some (Trace.mk "a" "b" true)
      ∧ lookupTrace (extendCtx ((Trace.mk "a" "b" true).Context Ctx.background)
          [(CtxKey.other 1, CtxVal.otherVal 5)]) = some (Trace.mk "a" "b" true)
      ∧ lookupTrace (Ctx.background.withValue (CtxKey.other 2) (CtxVal.otherVal 3)) = none) :=
  ⟨by decide, by decide,
    traceparent_C4 Ctx.background
      (Ctx.background.withValue (CtxKey.other 2) (CtxVal.otherVal 3))
      (Trace.mk "a" "b" true) [(CtxKey.other 1, CtxVal.otherVal 5)]
      (by decide) (by decide)⟩

/-- C5: when the context stores no Trace Record, or stores one whose id is
the empty string, the extractor returns the empty field list, whatever the
record metadata is; being a total function, it never fails. -/
theorem traceparent_C5 (c : Ctx) (t : Nat) (lvl : Int) (msg : String)
    (h : lookupTrace c = none ∨ ∃ T, lookupTrace c = some T ∧ T.ID = "") :
    TraceParentExtractor c t lvl msg = [] := by
  rcases h with h | ⟨T, hT, hid⟩
  · simp only [TraceParentExtractor, h]
  · simp only [TraceParentExtractor, hT, if_pos hid]

/-- C5 witness: a stored trace with empty id yields no fields. -/
theorem traceparent_C5_witness :
    (lookupTrace ((Trace.mk "" "x" true).Context Ctx.background) = none
      ∨ ∃ T, lookupTrace ((Trace.mk "" "x" true).Context Ctx.background) = some T ∧ T.ID = "")
    ∧ TraceParentExtractor ((Trace.mk "" "x" true).Context Ctx.background) 7 3 "m" = [] :=
  ⟨Or.inr ⟨Trace.mk "" "x" true, rfl, rfl⟩,
    traceparent_C5 ((Trace.mk "" "x" true).Context Ctx.background) 7 3 "m"
      (Or.inr ⟨Trace.mk "" "x" true, rfl, rfl⟩)⟩

/-- C6: when the stored trace has a non-empty id and a non-empty spanID, the
extractor returns exactly three fields in order — `traceID` = the trace id,
`traceSampled` = the sampled flag, and `spanID` whose value is the trace id
(not the spanID field): the reference defect. -/
theorem traceparent_C6 (c : Ctx) (t : Nat) (lvl : Int) (msg : String) (T : Trace)
    (hT : lookupTrace c = some T) (hid : T.ID ≠ "") (hsp : T.SpanID ≠ "") :
    TraceParentExtractor c t lvl msg
      = [slogString "traceID" T.ID, slogBool "traceSampled" T.Sampled,
          slogString "spanID" T.ID] := by
  simp only [TraceParentExtractor, hT, if_neg hid]
  rw [if_pos (by simp [bne_iff_ne, hsp])]
  rfl

/-- C6 witness: the claim's concrete trace — the `spanID` field carries the
trace id `4bf92f3577b34da6a3ce929d0e0e4736`, not the span id. -/
theorem traceparent_C6_witness :
    lookupTrace ((Trace.mk "4bf92f3577b34da6a3ce929d0e0e4736" "00f067aa0ba902b7" true).Context
        Ctx.background)
      = some (Trace.mk "4bf92f3577b34da6a3ce929d0e0e4736" "00f067aa0ba902b7" true)
    ∧ ("4bf92f3577b34da6a3ce929d0e0e4736" : String) ≠ ""
    ∧ ("00f067aa0ba902b7" : String) ≠ ""
    ∧ TraceParentExtractor
        ((Trace.mk "4bf92f3577b34da6a3ce929d0e0e4736" "00f067aa0ba902b7" true).Context
          Ctx.background) 0 0 ""
      = [slogString "traceID" "4bf92f3577b34da6a3ce929d0e0e4736",
          slogBool "traceSampled" true,
          slogString "spanID" "4bf92f3577b34da6a3ce929d0e0e4736"] :=
  ⟨rfl, by decide, by decide,
    traceparent_C6 _ 0 0 "" (Trace.mk "4bf92f3577b34da6a3ce929d0e0e4736" "00f067aa0ba902b7" true)
      rfl (by decide) (by decide)⟩

/-- C7: the header `00-abc-def-01` — non-standard segment lengths — is
accepted verbatim: the inner handler sees a context carrying the trace
`{id := "abc", spanID := "def", sampled := true}`; no length or character-set
validation is applied to the id and span-id segments. -/
theorem traceparent_C7 :
    New (fun r => lookupTrace r.ctx) ⟨"00-abc-def-01", Ctx.background⟩
      = some (Trace.mk "abc" "def" true) := by decide

/-- C8: the extractor's output depends only on the context: the record
metadata arguments (timestamp, level, message) never influence the result. -/
theorem traceparent_C8 (c : Ctx) (t1 t2 : Nat) (l1 l2 : Int) (m1 m2 : String) :
    TraceParentExtractor c t1 l1 m1 = TraceParentExtractor c t2 l2 m2 := rfl

/-- C9: when the stored trace has a non-empty id and an empty spanID, the
extractor returns exactly two fields in order — the string field `traceID`
and the boolean field `traceSampled` — with no `spanID` field. -/
theorem traceparent_C9 (c : Ctx) (t : Nat) (lvl : Int) (msg : String) (T : Trace)
    (hT : lookupTrace c = some T) (hid : T.ID ≠ "") (hsp : T.SpanID = "") :
    TraceParentExtractor c t lvl msg
      = [slogString "traceID" T.ID, slogBool "traceSampled" T.Sampled] := by
  simp only [TraceParentExtractor, hT, if_neg hid]
  rw [if_neg (by simp [hsp])]

/-- C9 witness: a trace with empty span id yields the two fields only. -/
theorem traceparent_C9_witness :
    lookupTrace ((Trace.mk "abc" "" false).Context Ctx.background)
      = some (Trace.mk "abc" "" false)
    ∧ ("abc" : String) ≠ ""
    ∧ (Trace.mk "abc" "" false).SpanID = ""
    ∧ TraceParentExtractor ((Trace.mk "abc" "" false).Context Ctx.background) 1 2 "x"
      = [slogString "traceID" "abc", slogBool "traceSampled" false] :=
  ⟨rfl, by decide, rfl,
    traceparent_C9 _ 1 2 "x" (Trace.mk "abc" "" false) rfl (by decide) rfl⟩

/-- C10: last attachment wins — attaching T1 and then T2 yields a context on
which lookup returns T2; the most recent attachment shadows the earlier one
stored under the same private key. -/
theorem traceparent_C10 (c : Ctx) (T1 T2 : Trace) :
    lookupTrace (T2.Context (T1.Context c)) = some T2 :=
  lookupTrace_context T2 (T1.Context c)
